import Mathlib

/-!
# Verification of the COVID-19 data-analysis application

Shallow embedding of `src/Covid19dataanalysis.py`: the data-preparation
pipeline of `CovidAnalysisApp.load_and_prepare_data` (filter on
`Country/Region == 'US'`, wide-to-long melt, `%m/%d/%y` date parsing,
inner merge on `date`, `diff().fillna(0)` / `clip(lower=0)` derivation)
and the presenter operations (`show_summary`, `plot_total_cases`,
`plot_new_cases`, `plot_correlation`, `plot_bar`).

Cumulative counts are modelled as `Int` (the CSV cells are integers);
means are exact rationals; the Pearson correlation of
`plot_correlation` is interpreted over `ℝ` from exact rational
covariances.
-/

instance {ε α : Type} [DecidableEq ε] [DecidableEq α] : DecidableEq (Except ε α) := fun a b =>
  match a, b with
  | .ok x, .ok y =>
      if h : x = y then .isTrue (by rw [h]) else .isFalse (by intro hc; cases hc; exact h rfl)
  | .error x, .error y =>
      if h : x = y then .isTrue (by rw [h]) else .isFalse (by intro hc; cases hc; exact h rfl)
  | .ok _, .error _ => .isFalse (by intro hc; cases hc)
  | .error _, .ok _ => .isFalse (by intro hc; cases hc)

/-- A calendar date, as produced by `pd.to_datetime(..., format="%m/%d/%y")`. -/
structure Date where
  year : Nat
  month : Nat
  day : Nat
deriving DecidableEq, Repr

/-- Chronological strict order on dates (lexicographic year, month, day). -/
def Date.lt (a b : Date) : Prop :=
  a.year < b.year ∨ (a.year = b.year ∧
    (a.month < b.month ∨ (a.month = b.month ∧ a.day < b.day)))

instance : DecidablePred fun p : Date × Date => Date.lt p.1 p.2 := by
  intro p; unfold Date.lt; infer_instance

instance (a b : Date) : Decidable (Date.lt a b) := by
  unfold Date.lt; infer_instance

/-- A raw wide table after the `drop` of `Province/State`, `Lat`, `Long`:
one column per date string (in CSV column order) and one row per region,
each row carrying the `Country/Region` value and the cumulative counts in
date-column order. -/
structure RawWide where
  dates : List String
  rows : List (String × List Int)
deriving DecidableEq, Repr

/-- `df[df['Country/Region'] == 'US']`: keep only the rows whose region
identifier equals the key (exact, case-sensitive match). -/
def filterRegion (key : String) (tbl : RawWide) : RawWide :=
  { tbl with rows := tbl.rows.filter (fun r => r.1 == key) }

/-- Column-major accumulation of `DataFrame.melt`: one output block per
date column (in column order), each block listing every row of the frame.
`j` is the index of the current date column. -/
def meltCols (rows : List (String × List Int)) : List String → Nat → List (String × String × Int)
  | [], _ => []
  | d :: ds, j =>
      rows.map (fun r => (r.1, d, r.2.getD j 0)) ++ meltCols rows ds (j + 1)

/-- `df.melt(id_vars=['Country/Region'], var_name='date', value_name=...)`:
wide-to-long reshape, producing `(region, date-string, value)` rows. -/
def meltS (tbl : RawWide) : List (String × String × Int) :=
  meltCols tbl.rows tbl.dates 0

/-- Two-digit-year pivot of `strptime`'s `%y`: 69–99 map to 19xx,
00–68 map to 20xx. -/
def pivotYear (y : Nat) : Nat :=
  if 69 ≤ y then 1900 + y else 2000 + y

/-- Split a character list into the groups separated by `/`. -/
def splitSlash : List Char → List (List Char)
  | [] => [[]]
  | c :: rest =>
      if c = '/' then [] :: splitSlash rest
      else
        match splitSlash rest with
        | [] => [[c]]
        | g :: gs => (c :: g) :: gs

/-- The numeric-field scan of `strptime`: a nonempty all-digit group read
as a decimal number, `none` on an empty or non-digit group. -/
def digitsToNat? : List Char → Option Nat
  | [] => none
  | cs =>
      cs.foldl
        (fun acc c =>
          match acc with
          | none => none
          | some n => if c.isDigit then some (n * 10 + (c.toNat - 48)) else none)
        (some 0)

/-- `pd.to_datetime(s, format="%m/%d/%y")` on one date string: split on
`/`, read the three numeric fields, apply the two-digit-year pivot;
any malformed field raises, modelled as `Except.error`. -/
def parseDate (s : String) : Except String Date :=
  match splitSlash s.data with
  | [ms, ds, ys] =>
      match digitsToNat? ms, digitsToNat? ds, digitsToNat? ys with
      | some m, some d, some y =>
          if 1 ≤ m ∧ m ≤ 12 ∧ 1 ≤ d ∧ d ≤ 31 ∧ y ≤ 99 then
            .ok ⟨pivotYear y, m, d⟩
          else
            .error ("time data " ++ s ++ " does not match format %m/%d/%y")
      | _, _, _ => .error ("time data " ++ s ++ " does not match format %m/%d/%y")
  | _ => .error ("time data " ++ s ++ " does not match format %m/%d/%y")

/-- Parse a list of date strings, failing on the first malformed one. -/
def parseDates : List String → Except String (List Date)
  | [] => .ok []
  | s :: rest =>
      match parseDate s with
      | .error e => .error e
      | .ok d =>
          match parseDates rest with
          | .error e => .error e
          | .ok ds => .ok (d :: ds)

/-- `df['date'] = pd.to_datetime(df['date'], format="%m/%d/%y")` applied to
a melted long frame: parse the date column in place, keeping region and
value; the first malformed date string raises. -/
def parseLong : List (String × String × Int) → Except String (List (String × Date × Int))
  | [] => .ok []
  | (reg, s, v) :: rest =>
      match parseDate s with
      | .error e => .error e
      | .ok d =>
          match parseLong rest with
          | .error e => .error e
          | .ok ds => .ok ((reg, d, v) :: ds)

/-- The column selection `df[['date', value]]` applied before the merge. -/
def selectDateValue (rows : List (String × Date × Int)) : List (Date × Int) :=
  rows.map (fun r => (r.2.1, r.2.2))

/-- One row of the merged frame `pd.merge(..., on='date')`. -/
structure JoinedRow where
  date : Date
  total_cases : Int
  total_deaths : Int
deriving DecidableEq, Repr

/-- `pd.merge(left, right, on='date')`: inner join, left-frame row order
preserved, each left row paired with every matching right row in
right-frame order. -/
def mergeOnDate : List (Date × Int) → List (Date × Int) → List JoinedRow
  | [], _ => []
  | a :: l, r =>
      (r.filter (fun b => decide (b.1 = a.1))).map (fun b => ⟨a.1, a.2, b.2⟩) ++
        mergeOnDate l r

/-- One row of the final prepared table `df_us`. -/
structure PreparedRecord where
  date : Date
  total_cases : Int
  total_deaths : Int
  new_cases : Int
  new_deaths : Int
deriving DecidableEq, Repr

/-- `series.diff().fillna(0)`: positional first difference with the first
entry replaced by 0. -/
def diffList : List Int → List Int
  | [] => []
  | x :: xs => 0 :: List.zipWith (fun a b => a - b) xs (x :: xs)

/-- `series.clip(lower=0)`. -/
def clipLower0 (xs : List Int) : List Int :=
  xs.map (fun x => max 0 x)

/-- The delta-derivation step: add the `new_cases` and `new_deaths`
columns (`diff().fillna(0)` then `clip(lower=0)` of the cumulative
columns) to the merged frame. The trailing `fillna(0, inplace=True)` is a
no-op here since an inner merge introduces no missing values. -/
def prepare (joined : List JoinedRow) : List PreparedRecord :=
  List.zipWith
    (fun (p : JoinedRow × Int) nd =>
      { date := p.1.date, total_cases := p.1.total_cases,
        total_deaths := p.1.total_deaths, new_cases := p.2, new_deaths := nd })
    (joined.zip (clipLower0 (diffList (joined.map (fun r => r.total_cases)))))
    (clipLower0 (diffList (joined.map (fun r => r.total_deaths))))

/-- The pure part of `load_and_prepare_data`, from the two fetched raw
wide tables to the prepared table (or the first raised error). -/
def prepare_pipeline (dfc dfd : RawWide) : Except String (List PreparedRecord) :=
  match parseLong (meltS (filterRegion "US" dfc)) with
  | .error e => .error e
  | .ok lc =>
      match parseLong (meltS (filterRegion "US" dfd)) with
      | .error e => .error e
      | .ok ld => .ok (prepare (mergeOnDate (selectDateValue lc) (selectDateValue ld)))

/-- The mutable state of `CovidAnalysisApp`: the readiness flag, the
cached prepared table (`None` before the first load) and the text shown
in the output widget. -/
structure AppState where
  data_loaded : Bool
  df_us : Option (List PreparedRecord)
  output : String
deriving DecidableEq, Repr

/-- The state set up by `__init__`. -/
def initState : AppState :=
  { data_loaded := false, df_us := none, output := "" }

/-- `load_and_prepare_data`: run the fetch (given as an `Except`, since
the network is external) and the pipeline inside the `try`; on success
install the new table, set the flag and the success text; on any failure
leave the state untouched and surface one dialog message carrying the
cause. The second component is the text of the error dialog, if any. -/
def load_and_prepare_data (st : AppState)
    (fetch : Except String (RawWide × RawWide)) : AppState × Option String :=
  match fetch with
  | .error e => (st, some ("Failed to load data:\n" ++ e))
  | .ok (dfc, dfd) =>
      match prepare_pipeline dfc dfd with
      | .error e => (st, some ("Failed to load data:\n" ++ e))
      | .ok p =>
          let st' : AppState := { st with
            df_us := some p
            data_loaded := true
            output := "✅ Data loaded and analyzed successfully." }
          (st', none)

/-- `series.max()`: `none` on an empty series (pandas yields NaN there). -/
def maxList : List Int → Option Int
  | [] => none
  | x :: xs => some (xs.foldl max x)

/-- `series.mean()` as an exact rational (0 on the empty list; that case
is never reached by `show_summary`, which fails earlier on `int(NaN)`). -/
def meanQ (xs : List Int) : ℚ :=
  (xs.sum : ℚ) / (xs.length : ℚ)

/-- Group a reversed digit list into blocks of three, least significant
block first. -/
def chunk3 : List Char → List (List Char)
  | [] => []
  | a :: b :: c :: rest => [a, b, c] :: chunk3 rest
  | l => [l]

/-- Python's `f"{n:,}"` on an integer: decimal digits with `,` as the
thousands separator. -/
def intWithCommas (n : Int) : String :=
  let ds := (toString n.natAbs).toList.reverse
  let s := String.intercalate "," (((chunk3 ds).reverse).map (fun g => String.mk g.reverse))
  (if n < 0 then "-" else "") ++ s

/-- Round to the nearest integer, ties to even (the rounding of Python's
fixed-point float formatting). -/
def roundHalfEven (q : ℚ) : Int :=
  let f := ⌊q⌋
  let frac := q - (f : ℚ)
  if frac < 1 / 2 then f
  else if 1 / 2 < frac then f + 1
  else if f % 2 = 0 then f else f + 1

/-- Python's `f"{x:.2f}"`: two fractional digits, rounding ties to even. -/
def formatFixed2 (q : ℚ) : String :=
  let m := roundHalfEven (q * 100)
  let a := m.natAbs
  let r := a % 100
  (if m < 0 then "-" else "") ++ toString (a / 100) ++ "." ++
    (if r < 10 then "0" ++ toString r else toString r)

/-- The summary template of `show_summary`. -/
def summaryText (tc td : Int) (avg : ℚ) : String :=
  "📊 Summary of Findings (JHU Data):\n" ++
  "- Total Cases in US: " ++ intWithCommas tc ++ "\n" ++
  "- Total Deaths in US: " ++ intWithCommas td ++ "\n" ++
  "- Average Daily New Cases: " ++ formatFixed2 avg ++ "\n\n" ++
  "📈 Line plots show case trends with peaks.\n" ++
  "🔥 Heatmap shows correlation between metrics."

/-- The not-ready text of `show_summary`. -/
def notReadyText : String := "⚠️ Please load the data first."

/-- `show_summary`: before any load, set the not-ready text; otherwise
compute the two maxima and the mean and set the formatted summary.
`Except.error` models a raised exception (`int(NaN)` on an empty table,
or attribute access on `None`), which leaves the output unchanged. -/
def show_summary (st : AppState) : Except String AppState :=
  if st.data_loaded = false then
    .ok { st with output := notReadyText }
  else
    match st.df_us with
    | none => .error "NoneType object has no attribute"
    | some df =>
        match maxList (df.map (fun r => r.total_cases)),
              maxList (df.map (fun r => r.total_deaths)) with
        | some tc, some td =>
            .ok { st with output := summaryText tc td (meanQ (df.map (fun r => r.new_cases))) }
        | _, _ => .error "cannot convert float NaN to integer"

/-- `plot_total_cases`: when the flag is set, the `(date, total_cases)`
series handed to the line chart; otherwise the silent no-op of the
untaken `if`, modelled as `none`. -/
def plot_total_cases (st : AppState) : Option (List (Date × Int)) :=
  if st.data_loaded then
    match st.df_us with
    | some df => some (df.map (fun r => (r.date, r.total_cases)))
    | none => none
  else none

/-- `plot_new_cases`: the `(date, new_cases)` series, same contract. -/
def plot_new_cases (st : AppState) : Option (List (Date × Int)) :=
  if st.data_loaded then
    match st.df_us with
    | some df => some (df.map (fun r => (r.date, r.new_cases)))
    | none => none
  else none

/-- The four numeric columns handed to `df[['total_cases', 'new_cases',
'total_deaths', 'new_deaths']].corr()`, in that column order. -/
def corrCols (df : List PreparedRecord) : Fin 4 → List ℚ
  | ⟨0, _⟩ => df.map (fun r => (r.total_cases : ℚ))
  | ⟨1, _⟩ => df.map (fun r => (r.new_cases : ℚ))
  | ⟨2, _⟩ => df.map (fun r => (r.total_deaths : ℚ))
  | ⟨3, _⟩ => df.map (fun r => (r.new_deaths : ℚ))
  | ⟨n + 4, h⟩ => absurd h (by omega)

/-- Arithmetic mean of a rational column. -/
def meanQL (xs : List ℚ) : ℚ :=
  xs.sum / (xs.length : ℚ)

/-- Centred column: each entry minus the column mean. -/
def demean (xs : List ℚ) : List ℚ :=
  xs.map (fun x => x - meanQL xs)

/-- Unnormalised covariance `Σ (x - μx)(y - μy)`; the normalisation by the
row count cancels in the Pearson ratio, so it is omitted. -/
def covL (xs ys : List ℚ) : ℚ :=
  (List.zipWith (fun a b => a * b) (demean xs) (demean ys)).sum

/-- Numerator of the Pearson correlation entry `(i, j)`. -/
def corrNum (df : List PreparedRecord) (i j : Fin 4) : ℚ :=
  covL (corrCols df i) (corrCols df j)

/-- Square of the denominator of the Pearson correlation entry `(i, j)`. -/
def corrDen2 (df : List PreparedRecord) (i j : Fin 4) : ℚ :=
  covL (corrCols df i) (corrCols df i) * covL (corrCols df j) (corrCols df j)

/-- `plot_correlation`: when the flag is set, the exact
numerator/denominator-squared data of the correlation matrix handed to
the heatmap; otherwise the silent no-op. -/
def plot_correlation (st : AppState) : Option (Fin 4 → Fin 4 → ℚ × ℚ) :=
  if st.data_loaded then
    match st.df_us with
    | some df => some (fun i j => (corrNum df i j, corrDen2 df i j))
    | none => none
  else none

/-- `plot_bar`: when the flag is set, the two bar heights
`(max total_cases, max total_deaths)`; otherwise the silent no-op. -/
def plot_bar (st : AppState) : Option (Option Int × Option Int) :=
  if st.data_loaded then
    match st.df_us with
    | some df =>
        some (maxList (df.map (fun r => r.total_cases)),
              maxList (df.map (fun r => r.total_deaths)))
    | none => none
  else none

/-- One user-triggered button action. -/
inductive AppAction where
  | load (fetch : Except String (RawWide × RawWide))
  | summary
  | plotTotal
  | plotNew
  | plotCorr
  | plotBar
deriving Repr

/-- The state transition of one button press: only `load` (on success)
and `show_summary` (on its non-raising paths) write to the state; a
raised exception and the chart actions leave it unchanged. -/
def step (st : AppState) : AppAction → AppState
  | .load f => (load_and_prepare_data st f).1
  | .summary =>
      match show_summary st with
      | .ok st' => st'
      | .error _ => st
  | .plotTotal => st
  | .plotNew => st
  | .plotCorr => st
  | .plotBar => st

/-! Concrete inputs used to instantiate the theorems below. -/

/-- A confirmed-cases wide table: three ascending date columns, a `US`
row `[10, 20, 30]` and an unrelated `Italy` row. -/
def cEx : RawWide :=
  ⟨["1/22/20", "1/23/20", "1/24/20"], [("US", [10, 20, 30]), ("Italy", [1, 1, 2])]⟩

/-- A deaths wide table matching `cEx`, with US deaths `[1, 2, 3]`. -/
def dEx : RawWide :=
  ⟨["1/22/20", "1/23/20", "1/24/20"], [("US", [1, 2, 3])]⟩

/-- The prepared table the pipeline produces from `cEx` and `dEx`. -/
def pEx : List PreparedRecord :=
  [{ date := ⟨2020, 1, 22⟩, total_cases := 10, total_deaths := 1,
     new_cases := 0, new_deaths := 0 },
   { date := ⟨2020, 1, 23⟩, total_cases := 20, total_deaths := 2,
     new_cases := 10, new_deaths := 1 },
   { date := ⟨2020, 1, 24⟩, total_cases := 30, total_deaths := 3,
     new_cases := 10, new_deaths := 1 }]

/-- A confirmed table that does not contain the `US` region. -/
def cNo : RawWide := ⟨["1/22/20"], [("Italy", [5])]⟩

/-- A deaths table that does not contain the `US` region. -/
def dNo : RawWide := ⟨["1/22/20"], [("Italy", [1])]⟩

/-- A confirmed table whose date columns are listed in descending order. -/
def cU : RawWide := ⟨["1/23/20", "1/22/20"], [("US", [3, 1])]⟩

/-- A deaths table whose date columns are listed in descending order. -/
def dU : RawWide := ⟨["1/23/20", "1/22/20"], [("US", [1, 0])]⟩

/-- The prepared table the pipeline produces from `cU` and `dU`: its rows
keep the descending column order of the input. -/
def pU : List PreparedRecord :=
  [{ date := ⟨2020, 1, 23⟩, total_cases := 3, total_deaths := 1,
     new_cases := 0, new_deaths := 0 },
   { date := ⟨2020, 1, 22⟩, total_cases := 1, total_deaths := 0,
     new_cases := 0, new_deaths := 0 }]

/-- A wide table with a US row but a malformed date column, on which
date parsing fails. -/
def cBad : RawWide := ⟨["13/99/abc"], [("US", [1])]⟩

/-- A joined frame with degenerate-free columns: every one of the four
derived columns has nonzero variance. -/
def dfW : List PreparedRecord :=
  [{ date := ⟨2020, 1, 22⟩, total_cases := 0, total_deaths := 0,
     new_cases := 0, new_deaths := 0 },
   { date := ⟨2020, 1, 23⟩, total_cases := 2, total_deaths := 1,
     new_cases := 2, new_deaths := 1 }]

/-! ## Structural lemmas about the derivation step -/

theorem diffList_length (xs : List Int) : (diffList xs).length = xs.length := by
  cases xs with
  | nil => rfl
  | cons x xs => simp [diffList]

theorem clipLower0_length (xs : List Int) : (clipLower0 xs).length = xs.length := by
  simp [clipLower0]

theorem prepare_length (j : List JoinedRow) : (prepare j).length = j.length := by
  simp [prepare, clipLower0_length, diffList_length]

theorem diffList_get_zero (xs : List Int) (h : 0 < (diffList xs).length) :
    (diffList xs).get ⟨0, h⟩ = 0 := by
  cases xs with
  | nil => simp [diffList] at h
  | cons x xs => rfl

theorem diffList_get_succ (xs : List Int) (i : Nat) (h : i + 1 < (diffList xs).length) :
    (diffList xs).get ⟨i + 1, h⟩ =
      xs.get ⟨i + 1, by rw [← diffList_length]; exact h⟩ -
        xs.get ⟨i, by have := diffList_length xs; omega⟩ := by
  cases xs with
  | nil => simp [diffList] at h
  | cons x xs =>
      have hlen : i < (List.zipWith (fun a b => a - b) xs (x :: xs)).length := by
        simp [diffList] at h
        simp [h]
      simp only [diffList, List.get_eq_getElem, List.getElem_cons_succ]
      rw [List.getElem_zipWith]

theorem prepare_get (j : List JoinedRow) (i : Nat) (h : i < (prepare j).length) :
    (prepare j).get ⟨i, h⟩ =
      { date := (j.get ⟨i, (prepare_length j) ▸ h⟩).date
        total_cases := (j.get ⟨i, (prepare_length j) ▸ h⟩).total_cases
        total_deaths := (j.get ⟨i, (prepare_length j) ▸ h⟩).total_deaths
        new_cases := max 0 ((diffList (j.map (fun r => r.total_cases))).get
          ⟨i, by rw [diffList_length, List.length_map]; exact (prepare_length j) ▸ h⟩)
        new_deaths := max 0 ((diffList (j.map (fun r => r.total_deaths))).get
          ⟨i, by rw [diffList_length, List.length_map]; exact (prepare_length j) ▸ h⟩) } := by
  simp only [prepare, clipLower0, List.get_eq_getElem]
  rw [List.getElem_zipWith, List.getElem_zip, List.getElem_map, List.getElem_map]

theorem prepare_frame_aux (j : List JoinedRow) :
    (prepare j).map (fun r => JoinedRow.mk r.date r.total_cases r.total_deaths) = j := by
  apply List.ext_getElem (by simp [prepare_length])
  intro i h1 h2
  have hp : i < (prepare j).length := by simpa using h1
  rw [List.getElem_map]
  rw [show (prepare j)[i] = (prepare j).get ⟨i, hp⟩ from rfl]
  rw [prepare_get]
  rfl

theorem prepare_map_date (j : List JoinedRow) :
    (prepare j).map (fun r => r.date) = j.map (fun r => r.date) := by
  conv_rhs => rw [← prepare_frame_aux j]
  rw [List.map_map]
  rfl

/-! ## Delta derivation over the prepared table -/

theorem prepare_deltas_aux (j : List JoinedRow) :
    (∀ h0 : 0 < (prepare j).length,
        ((prepare j).get ⟨0, h0⟩).new_cases = 0 ∧ ((prepare j).get ⟨0, h0⟩).new_deaths = 0) ∧
    (∀ i, ∀ hi : i + 1 < (prepare j).length,
        (((prepare j).get ⟨i + 1, hi⟩).new_cases =
          max 0 (((prepare j).get ⟨i + 1, hi⟩).total_cases -
                 ((prepare j).get ⟨i, Nat.lt_of_succ_lt hi⟩).total_cases)) ∧
        (((prepare j).get ⟨i + 1, hi⟩).new_deaths =
          max 0 (((prepare j).get ⟨i + 1, hi⟩).total_deaths -
                 ((prepare j).get ⟨i, Nat.lt_of_succ_lt hi⟩).total_deaths))) := by
  constructor
  · intro h0
    rw [prepare_get]
    refine ⟨?_, ?_⟩ <;>
      · dsimp only
        rw [diffList_get_zero]
        rfl
  · intro i hi
    rw [prepare_get, prepare_get]
    refine ⟨?_, ?_⟩ <;>
      · dsimp only
        rw [diffList_get_succ]
        simp [List.get_eq_getElem, List.getElem_map]

/-- C3: in the PreparedTable produced by `load`, `new_cases` at index 0
equals 0 and, for every i > 0, `new_cases[i] = max 0 (total_cases[i] -
total_cases[i-1])`; symmetrically `new_deaths` with respect to
`total_deaths`. -/
theorem load_deltas (dfc dfd : RawWide) (p : List PreparedRecord)
    (h : prepare_pipeline dfc dfd = .ok p) :
    (∀ h0 : 0 < p.length,
        (p.get ⟨0, h0⟩).new_cases = 0 ∧ (p.get ⟨0, h0⟩).new_deaths = 0) ∧
    (∀ i, ∀ hi : i + 1 < p.length,
        ((p.get ⟨i + 1, hi⟩).new_cases =
          max 0 ((p.get ⟨i + 1, hi⟩).total_cases -
                 (p.get ⟨i, Nat.lt_of_succ_lt hi⟩).total_cases)) ∧
        ((p.get ⟨i + 1, hi⟩).new_deaths =
          max 0 ((p.get ⟨i + 1, hi⟩).total_deaths -
                 (p.get ⟨i, Nat.lt_of_succ_lt hi⟩).total_deaths))) := by
  unfold prepare_pipeline at h
  split at h
  · exact absurd h (by simp)
  · split at h
    · exact absurd h (by simp)
    · cases h
      exact prepare_deltas_aux _

/-- Witness for C3 at the concrete tables `cEx`, `dEx`. -/
theorem load_deltas_witness :
    (pEx.get ⟨1, by decide⟩).new_cases =
      max 0 ((pEx.get ⟨1, by decide⟩).total_cases - (pEx.get ⟨0, by decide⟩).total_cases) :=
  ((load_deltas cEx dEx pEx (by decide)).2 0 (by decide)).1

/-- C9: the delta-derivation step only adds the `new_cases` and
`new_deaths` columns: projecting the final table back onto
(date, total_cases, total_deaths) recovers the joined table exactly,
row for row. -/
theorem prepare_frame (joined : List JoinedRow) :
    (prepare joined).map (fun r => JoinedRow.mk r.date r.total_cases r.total_deaths) =
      joined :=
  prepare_frame_aux joined

/-- C7: melting the wide table with date columns `1/22/20`, `1/23/20` and
single row `US: [1, 3]` into long form and parsing the dates with the
fixed `%m/%d/%y` format yields exactly the rows `(US, 2020-01-22, 1)` and
`(US, 2020-01-23, 3)`. -/
theorem melt_parse_roundtrip :
    parseLong (meltS ⟨["1/22/20", "1/23/20"], [("US", [1, 3])]⟩) =
      .ok [("US", ⟨2020, 1, 22⟩, 1), ("US", ⟨2020, 1, 23⟩, 3)] := by decide

/-- C4: when the fetch or any pipeline step fails, the failure is
surfaced as the single dialog message carrying the underlying cause, and
the cached table and readiness flag are left exactly as they were: the
returned state is the input state. -/
theorem load_failure_frame :
    (∀ (st : AppState) (e : String),
        load_and_prepare_data st (.error e) = (st, some ("Failed to load data:\n" ++ e))) ∧
    (∀ (st : AppState) (dfc dfd : RawWide) (e : String),
        prepare_pipeline dfc dfd = .error e →
        load_and_prepare_data st (.ok (dfc, dfd)) =
          (st, some ("Failed to load data:\n" ++ e))) := by
  constructor
  · intro st e
    rfl
  · intro st dfc dfd e h
    unfold load_and_prepare_data
    dsimp only
    rw [h]

/-- Witness for C4: a malformed date column makes the pipeline fail and
leaves the initial state untouched. -/
theorem load_failure_frame_witness :
    load_and_prepare_data initState (.ok (cBad, cBad)) =
      (initState,
       some ("Failed to load data:\n" ++
         "time data 13/99/abc does not match format %m/%d/%y")) :=
  load_failure_frame.2 initState cBad cBad
    "time data 13/99/abc does not match format %m/%d/%y" (by decide)

/-! ## Behaviour of the pipeline when the target region is absent -/

theorem meltCols_nil_rows (ds : List String) (j : Nat) : meltCols [] ds j = [] := by
  induction ds generalizing j with
  | nil => rfl
  | cons d ds ih => simp [meltCols, ih]

theorem mergeOnDate_nil_right (l : List (Date × Int)) : mergeOnDate l [] = [] := by
  induction l with
  | nil => rfl
  | cons a l ih => simp [mergeOnDate, ih]

theorem parseLong_append {a b : List (String × String × Int)}
    {xa xb : List (String × Date × Int)}
    (ha : parseLong a = .ok xa) (hb : parseLong b = .ok xb) :
    parseLong (a ++ b) = .ok (xa ++ xb) := by
  induction a generalizing xa with
  | nil =>
      simp only [parseLong] at ha
      cases ha
      simpa using hb
  | cons p rest ih =>
      obtain ⟨reg, s, v⟩ := p
      simp only [parseLong] at ha ⊢
      cases hd : parseDate s with
      | error e => rw [hd] at ha; cases ha
      | ok d =>
          rw [hd] at ha
          cases hrest : parseLong rest with
          | error e => rw [hrest] at ha; cases ha
          | ok ds =>
              rw [hrest] at ha
              cases ha
              rw [List.cons_append]
              simp [parseLong, hd, ih hrest]

theorem parseLong_block (rows : List (String × List Int)) (d : String) (d0 : Date) (j : Nat)
    (hd : parseDate d = .ok d0) :
    parseLong (rows.map (fun r => (r.1, d, r.2.getD j 0))) =
      .ok (rows.map (fun r => (r.1, d0, r.2.getD j 0))) := by
  induction rows with
  | nil => rfl
  | cons r rows ih =>
      simp only [List.map_cons, parseLong, hd]
      rw [ih]

theorem parseLong_meltCols (ds : List String) (pds : List Date)
    (h : parseDates ds = .ok pds) (rows : List (String × List Int)) (j : Nat) :
    ∃ l, parseLong (meltCols rows ds j) = .ok l := by
  induction ds generalizing pds j with
  | nil => exact ⟨[], rfl⟩
  | cons d ds ih =>
      simp only [parseDates] at h
      cases hd : parseDate d with
      | error e => rw [hd] at h; cases h
      | ok d0 =>
          rw [hd] at h
          cases hrest : parseDates ds with
          | error e => rw [hrest] at h; cases h
          | ok tail =>
              obtain ⟨l2, hl2⟩ := ih tail hrest (j + 1)
              exact ⟨_, parseLong_append (parseLong_block rows d d0 j hd) hl2⟩

theorem prepare_pipeline_absent (dfc dfd : RawWide) (cDates dDates : List Date)
    (hcp : parseDates dfc.dates = .ok cDates)
    (hdp : parseDates dfd.dates = .ok dDates)
    (habs : dfc.rows.filter (fun r => r.1 == "US") = [] ∨
            dfd.rows.filter (fun r => r.1 == "US") = []) :
    prepare_pipeline dfc dfd = .ok [] := by
  cases habs with
  | inl hc =>
      have hm : meltS (filterRegion "US" dfc) = [] := by
        unfold meltS filterRegion
        dsimp only
        rw [hc]
        exact meltCols_nil_rows _ _
      obtain ⟨ld, hld⟩ :=
        parseLong_meltCols dfd.dates dDates hdp ((filterRegion "US" dfd).rows) 0
      unfold prepare_pipeline
      rw [hm]
      rw [show parseLong (meltS (filterRegion "US" dfd)) = .ok ld from hld]
      rfl
  | inr hd =>
      have hm : meltS (filterRegion "US" dfd) = [] := by
        unfold meltS filterRegion
        dsimp only
        rw [hd]
        exact meltCols_nil_rows _ _
      obtain ⟨lc, hlc⟩ :=
        parseLong_meltCols dfc.dates cDates hcp ((filterRegion "US" dfc).rows) 0
      unfold prepare_pipeline
      rw [hm]
      rw [show parseLong (meltS (filterRegion "US" dfc)) = .ok lc from hlc]
      simp only [parseLong]
      rw [show selectDateValue [] = [] from rfl, mergeOnDate_nil_right]
      rfl

/-- C1 counterexample: on concrete raw tables that do not contain the
`US` region, `load` succeeds with an empty PreparedTable but sets the
readiness flag, and `show_summary` then raises (`int` of NaN) instead of
returning the not-ready indicator — refuting the claim that every read
operation returns "not ready" and never raises. -/
theorem absent_region_counterexample :
    (load_and_prepare_data initState (.ok (cNo, dNo))).2 = none ∧
    (load_and_prepare_data initState (.ok (cNo, dNo))).1.df_us = some [] ∧
    (load_and_prepare_data initState (.ok (cNo, dNo))).1.data_loaded = true ∧
    show_summary (load_and_prepare_data initState (.ok (cNo, dNo))).1 =
      .error "cannot convert float NaN to integer" :=
  ⟨rfl, rfl, rfl, rfl⟩

/-- C1 (amended): if the target region is absent from either raw table
(and the date columns parse), `load` succeeds, caches an empty
PreparedTable and sets the readiness flag; the chart operations then
return the empty data without raising, but `show_summary` raises on
`int(NaN)` instead of returning the not-ready indicator, which is only
produced while no load has succeeded. -/
theorem load_absent_region (st : AppState) (dfc dfd : RawWide)
    (cDates dDates : List Date)
    (hcp : parseDates dfc.dates = .ok cDates)
    (hdp : parseDates dfd.dates = .ok dDates)
    (habs : dfc.rows.filter (fun r => r.1 == "US") = [] ∨
            dfd.rows.filter (fun r => r.1 == "US") = []) :
    ∃ st', load_and_prepare_data st (.ok (dfc, dfd)) = (st', none) ∧
      st'.df_us = some [] ∧
      st'.data_loaded = true ∧
      show_summary st' = .error "cannot convert float NaN to integer" ∧
      plot_total_cases st' = some [] ∧
      plot_new_cases st' = some [] ∧
      plot_correlation st' = some (fun i j => (corrNum [] i j, corrDen2 [] i j)) ∧
      plot_bar st' = some (none, none) := by
  have hpipe := prepare_pipeline_absent dfc dfd cDates dDates hcp hdp habs
  refine ⟨{ st with
            df_us := some []
            data_loaded := true
            output := "✅ Data loaded and analyzed successfully." },
          ?_, rfl, rfl, rfl, rfl, rfl, rfl, rfl⟩
  unfold load_and_prepare_data
  dsimp only
  rw [hpipe]

/-- Witness for the amended C1 at the concrete region-free tables. -/
theorem load_absent_region_witness :
    ∃ st', load_and_prepare_data initState (.ok (cNo, dNo)) = (st', none) ∧
      st'.df_us = some [] ∧
      st'.data_loaded = true ∧
      show_summary st' = .error "cannot convert float NaN to integer" ∧
      plot_total_cases st' = some [] ∧
      plot_new_cases st' = some [] ∧
      plot_correlation st' = some (fun i j => (corrNum [] i j, corrDen2 [] i j)) ∧
      plot_bar st' = some (none, none) :=
  load_absent_region initState cNo dNo [⟨2020, 1, 22⟩] [⟨2020, 1, 22⟩]
    (by decide) (by decide) (Or.inl (by decide))

/-! ## The summary operation -/

theorem foldl_max_mem (xs : List Int) (a : Int) :
    xs.foldl max a = a ∨ xs.foldl max a ∈ xs := by
  induction xs generalizing a with
  | nil => exact Or.inl rfl
  | cons x xs ih =>
      simp only [List.foldl_cons]
      rcases ih (max a x) with h | h
      · rcases max_choice a x with hm | hm
        · exact Or.inl (h.trans hm)
        · refine Or.inr ?_
          rw [h.trans hm]
          exact List.mem_cons_self x xs
      · exact Or.inr (List.mem_cons_of_mem _ h)

theorem le_foldl_max (xs : List Int) (a : Int) :
    a ≤ xs.foldl max a ∧ ∀ x ∈ xs, x ≤ xs.foldl max a := by
  induction xs generalizing a with
  | nil => exact ⟨le_refl _, by simp⟩
  | cons x xs ih =>
      obtain ⟨h1, h2⟩ := ih (max a x)
      simp only [List.foldl_cons]
      refine ⟨le_trans (le_max_left a x) h1, ?_⟩
      intro y hy
      rcases List.mem_cons.mp hy with rfl | hy
      · exact le_trans (le_max_right a y) h1
      · exact h2 y hy

theorem maxList_spec {xs : List Int} {m : Int} (h : maxList xs = some m) :
    m ∈ xs ∧ ∀ x ∈ xs, x ≤ m := by
  cases xs with
  | nil => cases h
  | cons x xs =>
      simp only [maxList] at h
      cases h
      constructor
      · rcases foldl_max_mem xs x with h | h
        · rw [h]
          exact List.mem_cons_self x xs
        · exact List.mem_cons_of_mem _ h
      · intro y hy
        obtain ⟨h1, h2⟩ := le_foldl_max xs x
        rcases List.mem_cons.mp hy with rfl | hy
        · exact h1
        · exact h2 y hy

set_option maxRecDepth 8000 in
/-- C5: on a ready state with a non-empty table, `show_summary` reports
the maximum of `total_cases` and of `total_deaths` (with thousands
separators) and the mean of `new_cases` (two decimals) through the fixed
template; in particular, on the prepared table with
`total_cases = [10, 20, 30]` and `total_deaths = [1, 2, 3]` the report
shows 30, 3 and 6.67. -/
theorem show_summary_spec :
    (∀ (st : AppState) (df : List PreparedRecord) (tc td : Int),
        st.data_loaded = true → st.df_us = some df →
        maxList (df.map (fun r => r.total_cases)) = some tc →
        maxList (df.map (fun r => r.total_deaths)) = some td →
        (show_summary st =
          .ok { st with output := summaryText tc td (meanQ (df.map (fun r => r.new_cases))) } ∧
         tc ∈ df.map (fun r => r.total_cases) ∧
         (∀ x ∈ df.map (fun r => r.total_cases), x ≤ tc) ∧
         td ∈ df.map (fun r => r.total_deaths) ∧
         (∀ x ∈ df.map (fun r => r.total_deaths), x ≤ td))) ∧
    show_summary { data_loaded := true, df_us := some pEx, output := "" } =
      .ok { data_loaded := true, df_us := some pEx,
            output := "📊 Summary of Findings (JHU Data):\n- Total Cases in US: 30\n- Total Deaths in US: 3\n- Average Daily New Cases: 6.67\n\n📈 Line plots show case trends with peaks.\n🔥 Heatmap shows correlation between metrics." } := by
  constructor
  · intro st df tc td hdl hdf h1 h2
    have hm := maxList_spec h1
    have hm2 := maxList_spec h2
    refine ⟨?_, hm.1, hm.2, hm2.1, hm2.2⟩
    simp [show_summary, hdl, hdf, h1, h2]
  · have h1 : maxList (pEx.map (fun r => r.total_cases)) = some 30 := by decide
    have h2 : maxList (pEx.map (fun r => r.total_deaths)) = some 3 := by decide
    have hmean : meanQ (pEx.map (fun r => r.new_cases)) = 20 / 3 := by
      norm_num [meanQ, pEx]
    have hrhe : roundHalfEven (20 / 3 * 100) = 667 := by
      norm_num [roundHalfEven]
    have hff : formatFixed2 (20 / 3) = "6.67" := by
      unfold formatFixed2
      rw [hrhe]
      decide
    have hst : summaryText 30 3 (20 / 3) =
        "📊 Summary of Findings (JHU Data):\n- Total Cases in US: 30\n- Total Deaths in US: 3\n- Average Daily New Cases: 6.67\n\n📈 Line plots show case trends with peaks.\n🔥 Heatmap shows correlation between metrics." := by
      unfold summaryText
      rw [hff]
      decide
    simp [show_summary, h1, h2, hmean, hst]

/-- Witness for C5 at the concrete prepared table `pEx`. -/
theorem show_summary_spec_witness :
    show_summary { data_loaded := true, df_us := some pEx, output := "" } =
      .ok { data_loaded := true, df_us := some pEx,
            output := summaryText 30 3 (meanQ (pEx.map (fun r => r.new_cases))) } ∧
    (30 : Int) ∈ pEx.map (fun r => r.total_cases) ∧
    (∀ x ∈ pEx.map (fun r => r.total_cases), x ≤ 30) ∧
    (3 : Int) ∈ pEx.map (fun r => r.total_deaths) ∧
    (∀ x ∈ pEx.map (fun r => r.total_deaths), x ≤ 3) :=
  show_summary_spec.1 { data_loaded := true, df_us := some pEx, output := "" } pEx 30 3
    rfl rfl (by decide) (by decide)

/-! ## The correlation matrix -/

theorem zipWith_mul_comm (xs ys : List ℚ) :
    List.zipWith (fun a b => a * b) xs ys = List.zipWith (fun a b => a * b) ys xs := by
  induction xs generalizing ys with
  | nil => cases ys <;> rfl
  | cons x xs ih =>
      cases ys with
      | nil => rfl
      | cons y ys => simp [mul_comm, ih]

theorem covL_comm (xs ys : List ℚ) : covL xs ys = covL ys xs := by
  unfold covL
  rw [zipWith_mul_comm]

/-- C6: on any table whose four numeric columns each have nonzero
variance, the Pearson matrix of `plot_correlation` — entry `(i, j)` being
`cov(i, j) / sqrt(var i * var j)` over the reals — is symmetric and has
diagonal exactly 1. -/
theorem corr_symm_diag (df : List PreparedRecord)
    (hnd : ∀ i : Fin 4, 0 < covL (corrCols df i) (corrCols df i)) (i j : Fin 4) :
    ((corrNum df i j : ℝ) / Real.sqrt (corrDen2 df i j) =
      (corrNum df j i : ℝ) / Real.sqrt (corrDen2 df j i)) ∧
    (corrNum df i i : ℝ) / Real.sqrt (corrDen2 df i i) = 1 := by
  constructor
  · rw [show corrNum df i j = corrNum df j i from covL_comm _ _,
        show corrDen2 df i j = corrDen2 df j i from mul_comm _ _]
  · set c := covL (corrCols df i) (corrCols df i) with hc_def
    have hc : (0 : ℚ) < c := hnd i
    have hcR : (0 : ℝ) < (c : ℝ) := by exact_mod_cast hc
    show (c : ℝ) / Real.sqrt ((c * c : ℚ) : ℝ) = 1
    rw [Rat.cast_mul, Real.sqrt_mul_self hcR.le]
    exact div_self (ne_of_gt hcR)

/-- Witness for C6 at the concrete non-degenerate table `dfW`. -/
theorem corr_symm_diag_witness :
    ((corrNum dfW 0 2 : ℝ) / Real.sqrt (corrDen2 dfW 0 2) =
      (corrNum dfW 2 0 : ℝ) / Real.sqrt (corrDen2 dfW 2 0)) ∧
    (corrNum dfW 0 0 : ℝ) / Real.sqrt (corrDen2 dfW 0 0) = 1 :=
  corr_symm_diag dfW
    (by intro i; fin_cases i <;> norm_num [covL, corrCols, demean, meanQL, dfW]) 0 2

/-! ## Purity and idempotence of the presenter reads -/

theorem show_summary_fields {st st' : AppState} (h : show_summary st = .ok st') :
    st'.data_loaded = st.data_loaded ∧ st'.df_us = st.df_us := by
  unfold show_summary at h
  split at h
  · cases h
    exact ⟨rfl, rfl⟩
  · split at h
    · cases h
    · split at h
      · cases h
        exact ⟨rfl, rfl⟩
      · cases h

theorem presenter_reads_congr {s t : AppState} (h1 : s.data_loaded = t.data_loaded)
    (h2 : s.df_us = t.df_us) :
    plot_total_cases s = plot_total_cases t ∧ plot_new_cases s = plot_new_cases t ∧
    plot_correlation s = plot_correlation t ∧ plot_bar s = plot_bar t := by
  unfold plot_total_cases plot_new_cases plot_correlation plot_bar
  rw [h1, h2]
  exact ⟨rfl, rfl, rfl, rfl⟩

theorem show_summary_idem {st st' : AppState} (h : show_summary st = .ok st') :
    show_summary st' = .ok st' := by
  obtain ⟨a, b, c⟩ := st
  unfold show_summary at h
  cases a with
  | false =>
      rw [if_pos rfl] at h
      cases h
      rfl
  | true =>
      rw [if_neg (by simp)] at h
      cases b with
      | none => cases h
      | some df =>
          dsimp only at h
          cases hm1 : maxList (df.map (fun r => r.total_cases)) with
          | none =>
              rw [hm1] at h
              dsimp only at h
              cases h
          | some tc =>
              rw [hm1] at h
              cases hm2 : maxList (df.map (fun r => r.total_deaths)) with
              | none =>
                  rw [hm2] at h
                  dsimp only at h
                  cases h
              | some td =>
                  rw [hm2] at h
                  dsimp only at h
                  cases h
                  unfold show_summary
                  rw [if_neg (by simp)]
                  dsimp only
                  rw [hm1, hm2]

/-- C8: every presenter read is a pure read of the cached PreparedTable:
the only state write (`show_summary`'s output text) is idempotent — a
second call returns the same result and the same state — the cached
table and readiness flag are never modified, and the chart reads are
unchanged by an intervening `show_summary`. -/
theorem presenter_idempotent (st st' : AppState) (h : show_summary st = .ok st') :
    show_summary st' = .ok st' ∧
    st'.data_loaded = st.data_loaded ∧
    st'.df_us = st.df_us ∧
    plot_total_cases st' = plot_total_cases st ∧
    plot_new_cases st' = plot_new_cases st ∧
    plot_correlation st' = plot_correlation st ∧
    plot_bar st' = plot_bar st := by
  obtain ⟨h1, h2⟩ := show_summary_fields h
  obtain ⟨p1, p2, p3, p4⟩ := presenter_reads_congr h1 h2
  exact ⟨show_summary_idem h, h1, h2, p1, p2, p3, p4⟩

/-- Witness for C8 at the not-yet-loaded initial state. -/
theorem presenter_idempotent_witness :
    show_summary { data_loaded := false, df_us := none, output := notReadyText } =
      .ok { data_loaded := false, df_us := none, output := notReadyText } ∧
    ({ data_loaded := false, df_us := none, output := notReadyText } : AppState).data_loaded =
      initState.data_loaded ∧
    ({ data_loaded := false, df_us := none, output := notReadyText } : AppState).df_us =
      initState.df_us ∧
    plot_total_cases { data_loaded := false, df_us := none, output := notReadyText } =
      plot_total_cases initState ∧
    plot_new_cases { data_loaded := false, df_us := none, output := notReadyText } =
      plot_new_cases initState ∧
    plot_correlation { data_loaded := false, df_us := none, output := notReadyText } =
      plot_correlation initState ∧
    plot_bar { data_loaded := false, df_us := none, output := notReadyText } =
      plot_bar initState :=
  presenter_idempotent initState { data_loaded := false, df_us := none, output := notReadyText }
    rfl

/-! ## Monotonicity of the readiness flag -/

theorem load_loaded_mono (st : AppState) (f : Except String (RawWide × RawWide))
    (h : st.data_loaded = true) :
    ((load_and_prepare_data st f).1).data_loaded = true := by
  unfold load_and_prepare_data
  cases f with
  | error e => exact h
  | ok p =>
      obtain ⟨c, d⟩ := p
      dsimp only
      cases hp : prepare_pipeline c d with
      | error e => exact h
      | ok q => rfl

theorem summaryText_head (tc td : Int) (q : ℚ) :
    (summaryText tc td q).data.head? = some '📊' := by
  unfold summaryText
  simp only [String.data_append]
  rfl

theorem summaryText_ne_notReady (tc td : Int) (q : ℚ) :
    summaryText tc td q ≠ notReadyText := by
  intro hcon
  have h1 := summaryText_head tc td q
  rw [hcon] at h1
  exact absurd h1 (by decide)

theorem step_loaded_mono (st : AppState) (a : AppAction) (h : st.data_loaded = true) :
    (step st a).data_loaded = true := by
  cases a with
  | load f => exact load_loaded_mono st f h
  | summary =>
      unfold step
      cases hs : show_summary st with
      | ok st2 =>
          dsimp only
          exact (show_summary_fields hs).1.trans h
      | error e => exact h
  | plotTotal => exact h
  | plotNew => exact h
  | plotCorr => exact h
  | plotBar => exact h

/-- C10: the readiness flag starts false, is set only by a successful
`load`, is never reset by any action (also along any sequence of
actions), and once set `show_summary` always takes the ready branch:
its output is a computed summary, never the not-ready message. -/
theorem readiness_monotone :
    initState.data_loaded = false ∧
    (∀ (st : AppState) (a : AppAction), st.data_loaded = true →
        (step st a).data_loaded = true) ∧
    (∀ (st : AppState) (acts : List AppAction), st.data_loaded = true →
        (acts.foldl step st).data_loaded = true) ∧
    (∀ (st : AppState) (a : AppAction), (step st a).data_loaded = true →
        st.data_loaded = true ∨
          ∃ f, a = AppAction.load f ∧ (load_and_prepare_data st f).2 = none) ∧
    (∀ (st st2 : AppState), st.data_loaded = true → show_summary st = .ok st2 →
        ∃ df tc td, st.df_us = some df ∧
          maxList (df.map (fun r => r.total_cases)) = some tc ∧
          maxList (df.map (fun r => r.total_deaths)) = some td ∧
          st2.output = summaryText tc td (meanQ (df.map (fun r => r.new_cases))) ∧
          st2.output ≠ notReadyText) := by
  refine ⟨rfl, step_loaded_mono, ?_, ?_, ?_⟩
  · intro st acts h
    induction acts generalizing st with
    | nil => exact h
    | cons a acts ih => exact ih (step st a) (step_loaded_mono st a h)
  · intro st a h
    cases a with
    | load f =>
        cases f with
        | error e => exact Or.inl h
        | ok p =>
            obtain ⟨c, d⟩ := p
            cases hp : prepare_pipeline c d with
            | error e =>
                refine Or.inl ?_
                unfold step load_and_prepare_data at h
                dsimp only at h
                rw [hp] at h
                exact h
            | ok q =>
                refine Or.inr ⟨.ok (c, d), rfl, ?_⟩
                unfold load_and_prepare_data
                dsimp only
                rw [hp]
    | summary =>
        unfold step at h
        cases hs : show_summary st with
        | ok st2 =>
            rw [hs] at h
            dsimp only at h
            exact Or.inl ((show_summary_fields hs).1.symm.trans h)
        | error e =>
            rw [hs] at h
            exact Or.inl h
    | plotTotal => exact Or.inl h
    | plotNew => exact Or.inl h
    | plotCorr => exact Or.inl h
    | plotBar => exact Or.inl h
  · intro st st2 hload hok
    unfold show_summary at hok
    rw [hload] at hok
    rw [if_neg (by simp)] at hok
    cases hb : st.df_us with
    | none =>
        rw [hb] at hok
        cases hok
    | some df =>
        rw [hb] at hok
        dsimp only at hok
        cases hm1 : maxList (df.map (fun r => r.total_cases)) with
        | none =>
            rw [hm1] at hok
            dsimp only at hok
            cases hok
        | some tc =>
            rw [hm1] at hok
            cases hm2 : maxList (df.map (fun r => r.total_deaths)) with
            | none =>
                rw [hm2] at hok
                dsimp only at hok
                cases hok
            | some td =>
                rw [hm2] at hok
                dsimp only at hok
                cases hok
                exact ⟨df, tc, td, rfl, hm1, hm2, rfl, summaryText_ne_notReady _ _ _⟩

/-- Witness for C10: a successful load from the initial state sets the
flag, and it stays set across a subsequent failing load and a summary. -/
theorem readiness_monotone_witness :
    ((([AppAction.load (.error "network down"), AppAction.summary] : List AppAction).foldl
        step (step initState (AppAction.load (.ok (cEx, dEx))))).data_loaded = true) :=
  readiness_monotone.2.2.1 (step initState (AppAction.load (.ok (cEx, dEx))))
    [AppAction.load (.error "network down"), AppAction.summary] (by decide)

/-! ## Dates of the joined table -/

theorem Date.lt_ne {a b : Date} (h : Date.lt a b) : a ≠ b := by
  rintro rfl
  unfold Date.lt at h
  rcases h with h | ⟨_, h | ⟨_, h⟩⟩ <;> exact absurd h (lt_irrefl _)

theorem parseDates_length : ∀ {ds : List String} {pds : List Date},
    parseDates ds = .ok pds → pds.length = ds.length := by
  intro ds
  induction ds with
  | nil =>
      intro pds h
      simp only [parseDates] at h
      cases h
      rfl
  | cons d ds ih =>
      intro pds h
      simp only [parseDates] at h
      cases hd : parseDate d with
      | error e => rw [hd] at h; cases h
      | ok d0 =>
          rw [hd] at h
          cases hrest : parseDates ds with
          | error e => rw [hrest] at h; cases h
          | ok tail =>
              rw [hrest] at h
              dsimp only at h
              cases h
              simp [ih hrest]

theorem meltCols_single (ds : List String) : ∀ (j : Nat) (reg : String) (vals : List Int),
    j + ds.length ≤ vals.length →
    meltCols [(reg, vals)] ds j =
      (ds.zip (vals.drop j)).map (fun p => (reg, p.1, p.2)) := by
  induction ds with
  | nil =>
      intro j reg vals h
      rfl
  | cons d ds ih =>
      intro j reg vals h
      have hj : j < vals.length := by
        simp only [List.length_cons] at h
        omega
      have hdrop : vals.drop j = vals.get ⟨j, hj⟩ :: vals.drop (j + 1) := by
        rw [List.drop_eq_getElem_cons hj]
        rfl
      simp only [meltCols, List.map_cons, List.map_nil, List.singleton_append]
      rw [hdrop, List.zip_cons_cons, List.map_cons]
      rw [ih (j + 1) reg vals (by simp only [List.length_cons] at h; omega)]
      rw [List.getD_eq_getElem vals 0 hj]
      rfl

theorem parseLong_zip (ds : List String) : ∀ (pds : List Date) (vs : List Int) (reg : String),
    parseDates ds = .ok pds →
    parseLong ((ds.zip vs).map (fun p => (reg, p.1, p.2))) =
      .ok ((pds.zip vs).map (fun p => (reg, p.1, p.2))) := by
  induction ds with
  | nil =>
      intro pds vs reg h
      simp only [parseDates] at h
      cases h
      rfl
  | cons d ds ih =>
      intro pds vs reg h
      simp only [parseDates] at h
      cases hd : parseDate d with
      | error e => rw [hd] at h; cases h
      | ok d0 =>
          rw [hd] at h
          cases hrest : parseDates ds with
          | error e => rw [hrest] at h; cases h
          | ok tail =>
              rw [hrest] at h
              dsimp only at h
              cases h
              cases vs with
              | nil => rfl
              | cons v vs =>
                  have hih := ih tail vs reg hrest
                  simp only [List.zip_cons_cons, List.map_cons, parseLong, hd]
                  simp only [List.zip] at hih
                  rw [hih]
                  rfl

theorem selectDateValue_zip (pds : List Date) (vs : List Int) (reg : String) :
    selectDateValue ((pds.zip vs).map (fun p => (reg, p.1, p.2))) = pds.zip vs := by
  simp [selectDateValue, List.map_map]

theorem filter_fst_eq_nil {r : List (Date × Int)} {d : Date}
    (hd : d ∉ r.map Prod.fst) :
    r.filter (fun b => decide (b.1 = d)) = [] := by
  induction r with
  | nil => rfl
  | cons b r ih =>
      simp only [List.map_cons, List.mem_cons] at hd
      push_neg at hd
      simp only [List.filter_cons]
      rw [if_neg (by simp only [decide_eq_true_eq]; exact fun hc => hd.1 hc.symm)]
      exact ih hd.2

theorem filter_map_const {r : List (Date × Int)} (hnd : (r.map Prod.fst).Nodup) (d : Date) :
    (r.filter (fun b => decide (b.1 = d))).map (fun _ => d) =
      if d ∈ r.map Prod.fst then [d] else [] := by
  induction r with
  | nil => simp
  | cons b r ih =>
      simp only [List.map_cons, List.nodup_cons] at hnd
      obtain ⟨hb, hnd2⟩ := hnd
      simp only [List.filter_cons]
      by_cases hbd : b.1 = d
      · rw [if_pos (by simp [hbd])]
        subst hbd
        rw [filter_fst_eq_nil hb]
        simp
      · rw [if_neg (by simp [hbd])]
        rw [ih hnd2]
        simp only [List.map_cons]
        rw [if_congr (List.mem_cons.trans (or_iff_right (fun hdb => hbd hdb.symm))) rfl rfl]

theorem mergeOnDate_map_date (l r : List (Date × Int))
    (hr : (r.map Prod.fst).Nodup) :
    (mergeOnDate l r).map (fun x => x.date) =
      (l.map Prod.fst).filter (fun d => decide (d ∈ r.map Prod.fst)) := by
  induction l with
  | nil => rfl
  | cons a l ih =>
      simp only [mergeOnDate, List.map_append, List.map_map, List.map_cons, List.filter_cons,
        Function.comp_def]
      rw [ih]
      by_cases hmem : a.1 ∈ r.map Prod.fst
      · rw [if_pos (by simpa using hmem)]
        have hmc := filter_map_const hr a.1
        rw [if_pos hmem] at hmc
        rw [hmc, List.singleton_append]
      · rw [if_neg (by simpa using hmem)]
        rw [filter_fst_eq_nil hmem]
        simp

/-- C2 counterexample: the pipeline never sorts; with both wide tables
listing their shared date columns in descending order and containing the
`US` region, `load` succeeds but keeps that descending order, refuting
"its rows are sorted ascending by date". -/
theorem load_sorted_counterexample :
    prepare_pipeline cU dU = .ok pU ∧
    pU.map (fun r => r.date) = [⟨2020, 1, 23⟩, ⟨2020, 1, 22⟩] ∧
    Date.lt ⟨2020, 1, 22⟩ ⟨2020, 1, 23⟩ ∧
    ¬ List.Pairwise Date.lt (pU.map (fun r => r.date)) :=
  ⟨by decide, by decide, by decide, by decide⟩

/-- C2 (amended): for two raw wide tables whose date columns are listed
in ascending date order (one full-length row for the target region each,
all dates parsing), the PreparedTable has exactly one row per date in the
intersection of the two date sets, in ascending date order — the inner
merge preserves the left frame's (already ascending) order; no sort is
performed, so the ascending order of the result comes from the column
order of the input. -/
theorem load_intersection_sorted
    (dfc dfd : RawWide) (cVals dVals : List Int) (cDates dDates : List Date)
    (hcf : dfc.rows.filter (fun r => r.1 == "US") = [("US", cVals)])
    (hdf : dfd.rows.filter (fun r => r.1 == "US") = [("US", dVals)])
    (hclen : cVals.length = dfc.dates.length)
    (hdlen : dVals.length = dfd.dates.length)
    (hcp : parseDates dfc.dates = .ok cDates)
    (hdp : parseDates dfd.dates = .ok dDates)
    (hcs : List.Pairwise Date.lt cDates)
    (hds : List.Pairwise Date.lt dDates)
    (hcommon : ∃ d0, d0 ∈ cDates ∧ d0 ∈ dDates) :
    ∃ p, prepare_pipeline dfc dfd = .ok p ∧
      p.map (fun r => r.date) = cDates.filter (fun d => decide (d ∈ dDates)) ∧
      (∀ d, d ∈ p.map (fun r => r.date) ↔ (d ∈ cDates ∧ d ∈ dDates)) ∧
      (p.map (fun r => r.date)).Nodup ∧
      List.Pairwise Date.lt (p.map (fun r => r.date)) ∧
      p ≠ [] := by
  have hmc : meltS (filterRegion "US" dfc) =
      (dfc.dates.zip cVals).map (fun p => ("US", p.1, p.2)) := by
    unfold meltS filterRegion
    dsimp only
    rw [hcf]
    rw [meltCols_single dfc.dates 0 "US" cVals (by omega)]
    rw [List.drop_zero]
  have hmd : meltS (filterRegion "US" dfd) =
      (dfd.dates.zip dVals).map (fun p => ("US", p.1, p.2)) := by
    unfold meltS filterRegion
    dsimp only
    rw [hdf]
    rw [meltCols_single dfd.dates 0 "US" dVals (by omega)]
    rw [List.drop_zero]
  have hlc : parseLong (meltS (filterRegion "US" dfc)) =
      .ok ((cDates.zip cVals).map (fun p => ("US", p.1, p.2))) := by
    rw [hmc]
    exact parseLong_zip dfc.dates cDates cVals "US" hcp
  have hld : parseLong (meltS (filterRegion "US" dfd)) =
      .ok ((dDates.zip dVals).map (fun p => ("US", p.1, p.2))) := by
    rw [hmd]
    exact parseLong_zip dfd.dates dDates dVals "US" hdp
  have hpipe : prepare_pipeline dfc dfd =
      .ok (prepare (mergeOnDate (cDates.zip cVals) (dDates.zip dVals))) := by
    unfold prepare_pipeline
    rw [hlc]
    dsimp only
    rw [hld]
    dsimp only
    rw [selectDateValue_zip, selectDateValue_zip]
  have hclen2 : cDates.length = dfc.dates.length := parseDates_length hcp
  have hdlen2 : dDates.length = dfd.dates.length := parseDates_length hdp
  have hfst_c : (cDates.zip cVals).map Prod.fst = cDates :=
    List.map_fst_zip _ _ (by omega)
  have hfst_d : (dDates.zip dVals).map Prod.fst = dDates :=
    List.map_fst_zip _ _ (by omega)
  have hnd_d : ((dDates.zip dVals).map Prod.fst).Nodup := by
    rw [hfst_d]
    exact hds.imp (fun h => Date.lt_ne h)
  have hdates : (prepare (mergeOnDate (cDates.zip cVals) (dDates.zip dVals))).map
      (fun r => r.date) = cDates.filter (fun d => decide (d ∈ dDates)) := by
    rw [prepare_map_date]
    rw [mergeOnDate_map_date _ _ hnd_d]
    simp only [hfst_c, hfst_d]
  refine ⟨_, hpipe, hdates, ?_, ?_, ?_, ?_⟩
  · intro d
    rw [hdates]
    simp [List.mem_filter]
  · rw [hdates]
    exact (hcs.imp (fun h => Date.lt_ne h)).filter _
  · rw [hdates]
    exact List.Pairwise.sublist (List.filter_sublist _) hcs
  · obtain ⟨d0, hd1, hd2⟩ := hcommon
    intro hpnil
    have hmem : d0 ∈ (prepare (mergeOnDate (cDates.zip cVals) (dDates.zip dVals))).map
        (fun r => r.date) := by
      rw [hdates]
      simp [List.mem_filter, hd1, hd2]
    rw [hpnil] at hmem
    cases hmem

/-- Witness for the amended C2 at the concrete ascending tables `cEx`
and `dEx`. -/
theorem load_intersection_sorted_witness :
    ∃ p, prepare_pipeline cEx dEx = .ok p ∧
      p.map (fun r => r.date) =
        ([⟨2020, 1, 22⟩, ⟨2020, 1, 23⟩, ⟨2020, 1, 24⟩] : List Date).filter
          (fun d => decide (d ∈ ([⟨2020, 1, 22⟩, ⟨2020, 1, 23⟩, ⟨2020, 1, 24⟩] : List Date))) ∧
      (∀ d, d ∈ p.map (fun r => r.date) ↔
        (d ∈ ([⟨2020, 1, 22⟩, ⟨2020, 1, 23⟩, ⟨2020, 1, 24⟩] : List Date) ∧
         d ∈ ([⟨2020, 1, 22⟩, ⟨2020, 1, 23⟩, ⟨2020, 1, 24⟩] : List Date))) ∧
      (p.map (fun r => r.date)).Nodup ∧
      List.Pairwise Date.lt (p.map (fun r => r.date)) ∧
      p ≠ [] :=
  load_intersection_sorted cEx dEx [10, 20, 30] [1, 2, 3]
    [⟨2020, 1, 22⟩, ⟨2020, 1, 23⟩, ⟨2020, 1, 24⟩]
    [⟨2020, 1, 22⟩, ⟨2020, 1, 23⟩, ⟨2020, 1, 24⟩]
    (by decide) (by decide) (by decide) (by decide) (by decide) (by decide)
    (by decide) (by decide) ⟨⟨2020, 1, 22⟩, by decide, by decide⟩
